import Mathlib

/-!
Shallow embedding of the task-manager core from `src/main.rs`:
the process table (`TaskManager`), the record builder (the closure in
`refresh`), the ranking engine (`sort_processes` and the `Message::Sort`
arm of `update`) and the termination mediator (the `Message::KillProcess`
arm of `update`).

Modelling decisions:
* `u32`/`u64` fields become `Nat`: every operation performed on them here
  (comparison, division by constants) is overflow-free.
* `f32` becomes `F32`: either a rational value or `nan`; `partial_cmp`
  returns `none` exactly when a `nan` is involved, as for Rust floats.
* `Vec::sort_by` is contractually a stable sort driven by the comparator;
  it is modelled by `List.insertionSort`, the canonical stable sort, with
  the relation `comparator a b ≠ .gt`.
* The `sysinfo::System` handle is modelled by the list of raw processes it
  currently holds (`TaskManager.system`); `refresh_all` replaces it with
  the operating-system state `os`, which theorems quantify over.
* Externally visible effects (snapshot-provider queries, `kill` calls) are
  returned alongside the new state by `update`, mirroring the side effects
  of the corresponding Rust arms.
-/

namespace TaskMgr

/-- Rust `Ord::cmp` on unsigned integers (`u32`/`u64` modelled as `Nat`). -/
def natCmp (a b : Nat) : Ordering :=
  if a < b then .lt else if a = b then .eq else .gt

/-- Rust `char`/byte comparison via code points. -/
def charCmp (a b : Char) : Ordering :=
  natCmp a.toNat b.toNat

/-- Lexicographic comparison of character lists; for valid UTF-8 this
agrees with Rust's byte-wise `String::cmp`. -/
def listCmp : List Char → List Char → Ordering
  | [], [] => .eq
  | [], _ :: _ => .lt
  | _ :: _, [] => .gt
  | a :: as, b :: bs =>
    match charCmp a b with
    | .eq => listCmp as bs
    | o => o

/-- Rust `String::cmp` (lexicographic). -/
def strCmp (a b : String) : Ordering :=
  listCmp a.data b.data

/-- Model of an `f32` value: a rational number, or `nan` for the values
that are incomparable under `partial_cmp`. -/
inductive F32 where
  | nan : F32
  | val (q : Rat) : F32

deriving instance DecidableEq for F32

/-- `Ord::cmp` on the numeric (non-nan) float values. -/
def ratCmp (a b : Rat) : Ordering :=
  if a < b then .lt else if a = b then .eq else .gt

/-- Rust `f32::partial_cmp`: `none` exactly when either side is `nan`. -/
def F32.partialCmp : F32 → F32 → Option Ordering
  | .val a, .val b => some (ratCmp a b)
  | _, _ => none

/-- The `ProcessInfo` struct of `src/main.rs`. -/
structure ProcessInfo where
  pid : Nat
  name : String
  memory : Nat
  cpu : F32

deriving instance DecidableEq for ProcessInfo

/-- The `SortColumn` enum of `src/main.rs`. -/
inductive SortColumn where
  | Pid
  | Name
  | Memory
  | Cpu

deriving instance DecidableEq for SortColumn

/-- A raw snapshot entry as produced by the `sysinfo` provider:
`pid.as_u32()`, `process.name()`, `process.memory()` (bytes),
`process.cpu_usage()`. -/
structure RawProcess where
  pid : Nat
  name : String
  memory : Nat
  cpu : F32

deriving instance DecidableEq for RawProcess

/-- The `TaskManager` struct of `src/main.rs`; `system` is the process
set currently held by the `sysinfo::System` handle. -/
structure TaskManager where
  processes : List ProcessInfo
  sort_column : SortColumn
  sort_ascending : Bool
  system : List RawProcess

deriving instance DecidableEq for TaskManager

/-- The `Message` enum of `src/main.rs`. -/
inductive Message where
  | Sort (column : SortColumn)
  | KillProcess (pid : Nat)
  | Tick

/-- Externally visible side effects of one `update` call:
how many times the snapshot provider was queried (one per `refresh`,
via `refresh_all`), and the pids on which `process.kill()` was invoked. -/
structure Effects where
  snapshotQueries : Nat
  killCalls : List Nat

deriving instance DecidableEq for Effects

/-- The match inside `sort_processes` choosing the comparison key. -/
def cmpBy (col : SortColumn) (a b : ProcessInfo) : Ordering :=
  match col with
  | .Pid => natCmp a.pid b.pid
  | .Name => strCmp a.name b.name
  | .Memory => natCmp a.memory b.memory
  | .Cpu => (F32.partialCmp a.cpu b.cpu).getD Ordering.eq

/-- The full comparator passed to `sort_by`: the base comparison, reversed
(`Ordering::reverse`, i.e. `swap`) when `sort_ascending` is false. -/
def sortCmp (col : SortColumn) (asc : Bool) (a b : ProcessInfo) : Ordering :=
  if asc then cmpBy col a b else (cmpBy col a b).swap

/-- The order realised by a stable `sort_by` with comparator `sortCmp`:
`a` may stay before `b` iff the comparator does not say `Greater`. -/
def sortLe (col : SortColumn) (asc : Bool) (a b : ProcessInfo) : Prop :=
  sortCmp col asc a b ≠ .gt

instance (col : SortColumn) (asc : Bool) : DecidableRel (sortLe col asc) :=
  fun _ _ => instDecidableNot

/-- `Vec::sort_by` with the engine's comparator: a stable sort, modelled
by stable insertion sort. -/
def rankOrder (col : SortColumn) (asc : Bool) (procs : List ProcessInfo) :
    List ProcessInfo :=
  List.insertionSort (sortLe col asc) procs

/-- `TaskManager::sort_processes`. -/
def sort_processes (tm : TaskManager) : TaskManager :=
  { tm with processes := rankOrder tm.sort_column tm.sort_ascending tm.processes }

/-- The record-builder closure inside `TaskManager::refresh`:
`memory` is `process.memory() / 1024 / 1024`. -/
def buildRecord (r : RawProcess) : ProcessInfo :=
  { pid := r.pid, name := r.name, memory := r.memory / 1024 / 1024, cpu := r.cpu }

/-- `TaskManager::refresh`: `refresh_all` replaces the `System` data with
the current OS state `os`, the process list is rebuilt from it, and
`sort_processes` is applied. -/
def refresh (tm : TaskManager) (os : List RawProcess) : TaskManager :=
  sort_processes
    { tm with system := os, processes := os.map buildRecord }

/-- `TaskManager::update`: the three message arms, with their effects.
The `Sort` arm only toggles the ranking state and re-sorts; the
`KillProcess` arm looks `pid` up in the currently held `System` data,
calls `kill` when found (result discarded), and always refreshes. -/
def update (tm : TaskManager) (msg : Message) (os : List RawProcess) :
    TaskManager × Effects :=
  match msg with
  | .Tick =>
    (refresh tm os, ⟨1, []⟩)
  | .Sort column =>
    let tm' :=
      if tm.sort_column = column then
        { tm with sort_ascending := !tm.sort_ascending }
      else
        { tm with sort_column := column, sort_ascending := true }
    (sort_processes tm', ⟨0, []⟩)
  | .KillProcess pid =>
    let kills := if tm.system.any (fun r => r.pid == pid) then [pid] else []
    (refresh tm os, ⟨1, kills⟩)

/-- `TaskManager::new`: default ranking state (Pid, ascending), then an
immediate `refresh` against the OS state `os`. -/
def newTaskManager (os : List RawProcess) : TaskManager :=
  refresh
    { processes := [], sort_column := .Pid, sort_ascending := true, system := [] }
    os

/-- The spec's vocabulary for the direction component of the ranking
state, mapped onto the code's `sort_ascending` flag. -/
inductive SortDirection where
  | Ascending
  | Descending

deriving instance DecidableEq for SortDirection

/-- The direction encoded by `sort_ascending`. -/
def TaskManager.direction (tm : TaskManager) : SortDirection :=
  if tm.sort_ascending then .Ascending else .Descending

/-- Flip a direction. -/
def SortDirection.flip : SortDirection → SortDirection
  | .Ascending => .Descending
  | .Descending => .Ascending

/-- Modelled from the spec (for comparison with the code, claim C2): the
ordering the spec describes for a descending state — the whole-sequence
reversal of the stable ascending sort. -/
def specDescendingOrder (col : SortColumn) (procs : List ProcessInfo) :
    List ProcessInfo :=
  (rankOrder col true procs).reverse

/-- Two records with distinct pids but equal cpu values, the tie pair used
in the concrete tie-order scenarios. -/
def pA : ProcessInfo := ⟨1, "a", 0, .val 5⟩

/-- Second record of the tie pair. -/
def pB : ProcessInfo := ⟨2, "b", 0, .val 5⟩

/-- A record whose cpu is `nan`, hence incomparable to everything. -/
def pNan : ProcessInfo := ⟨3, "n", 0, .nan⟩

/-- A manager holding the tie pair, ranking state (Cpu, ascending). -/
def tmTies : TaskManager := ⟨[pA, pB], .Cpu, true, []⟩

/-- A manager with an empty table and an empty `System` view. -/
def tmEmpty : TaskManager := ⟨[], .Pid, true, []⟩

/-- The two-entry snapshot of the end-to-end scenario. -/
def os8 : List RawProcess :=
  [⟨10, "a", 3145728, .val 1⟩, ⟨20, "b", 1048576, .val (19 / 2)⟩]

/-- Claim C1: selecting the currently active column flips the direction and
keeps the column; selecting a different column installs it and resets the
direction to Ascending. -/
theorem select_column_toggles_or_resets
    (tm : TaskManager) (os : List RawProcess) (col : SortColumn) :
    (update tm (.Sort col) os).1.sort_column
        = (if col = tm.sort_column then tm.sort_column else col) ∧
    (update tm (.Sort col) os).1.direction
        = (if col = tm.sort_column then tm.direction.flip else .Ascending) := by
  cases tm with
  | mk procs sc asc sys =>
    by_cases h : sc = col
    · subst h
      cases asc <;>
        simp [update, sort_processes, TaskManager.direction, SortDirection.flip]
    · simp [update, sort_processes, TaskManager.direction, h, Ne.symm h]

/-- Claim C2, counterexample: with the tie pair `[pA, pB]` (equal cpu) and a
descending Cpu state, the engine's output is `[pA, pB]` (ties keep input
order), not the whole-sequence reversal `[pB, pA]` of the stable ascending
sort that the claim describes. -/
theorem descending_not_reverse_of_ascending :
    (sort_processes ⟨[pA, pB], .Cpu, false, []⟩).processes
      ≠ specDescendingOrder .Cpu [pA, pB] := by decide

/-- Claim C2 (amended): the engine sorts with the per-pair comparator
reversed under a stable sort rather than reversing the final ascending
ordering, so for every record sequence, sort column and direction,
equal-keyed records that occur in order in the input occur in that same
order in the output (they are not reversed). -/
theorem ties_keep_input_order
    (col : SortColumn) (asc : Bool) (procs : List ProcessInfo)
    (a b : ProcessInfo) (heq : cmpBy col a b = .eq)
    (hsub : [a, b].Sublist procs) :
    [a, b].Sublist (rankOrder col asc procs) := by
  refine List.pair_sublist_insertionSort ?_ hsub
  show sortCmp col asc a b ≠ .gt
  cases asc <;> simp [sortCmp, heq, Ordering.swap]

/-- Witness for `ties_keep_input_order` at the concrete tie pair. -/
theorem ties_keep_input_order_witness :
    cmpBy SortColumn.Cpu pA pB = .eq ∧
    [pA, pB].Sublist (rankOrder SortColumn.Cpu false [pA, pB]) :=
  ⟨by decide,
   ties_keep_input_order SortColumn.Cpu false [pA, pB] pA pB (by decide)
     (List.Sublist.refl _)⟩

/-- Claim C3: with the tie pair (pid 1 and pid 2, both cpu 5.0) and an
ascending Cpu state, pid 1 sorts before pid 2; after toggling the Cpu
column to descending via `update`, pid 1 still precedes pid 2. -/
theorem cpu_ties_stable_across_toggle :
    ((sort_processes tmTies).processes.map (fun p => p.pid) = [1, 2]) ∧
    (((update (sort_processes tmTies) (.Sort .Cpu) []).1.processes.map
        (fun p => p.pid)) = [1, 2]) := by decide

/-- Claim C4: a kill request queries the snapshot provider exactly once and
replaces the whole table from that fresh snapshot, whether or not the pid
is found; when the pid is absent from the held process set, no kill call is
issued. -/
theorem kill_always_refreshes_once
    (tm : TaskManager) (pid : Nat) (os : List RawProcess) :
    (update tm (.KillProcess pid) os).2.snapshotQueries = 1 ∧
    (update tm (.KillProcess pid) os).1.processes
        = rankOrder tm.sort_column tm.sort_ascending (os.map buildRecord) ∧
    ((∀ r ∈ tm.system, r.pid ≠ pid) →
      (update tm (.KillProcess pid) os).2.killCalls = []) := by
  refine ⟨rfl, rfl, fun h => ?_⟩
  have hany : tm.system.any (fun r => r.pid == pid) = false := by
    simp only [List.any_eq_false, beq_iff_eq]
    exact h
  simp [update, hany]

/-- Witness for `kill_always_refreshes_once` on an empty `System` view. -/
theorem kill_always_refreshes_once_witness :
    (update tmEmpty (.KillProcess 7) []).2.snapshotQueries = 1 ∧
    (update tmEmpty (.KillProcess 7) []).2.killCalls = [] :=
  ⟨(kill_always_refreshes_once tmEmpty 7 []).1,
   (kill_always_refreshes_once tmEmpty 7 []).2.2 (by decide)⟩

/-- Claim C5: the sort path issues no snapshot query and no kill call,
leaves the held `System` view unchanged, and only permutes the existing
record set. -/
theorem sort_path_no_snapshot_query
    (tm : TaskManager) (col : SortColumn) (os : List RawProcess) :
    (update tm (.Sort col) os).2.snapshotQueries = 0 ∧
    (update tm (.Sort col) os).2.killCalls = [] ∧
    (update tm (.Sort col) os).1.system = tm.system ∧
    ((update tm (.Sort col) os).1.processes).Perm tm.processes := by
  refine ⟨rfl, rfl, ?_, ?_⟩
  · by_cases h : tm.sort_column = col <;> simp [update, sort_processes, h]
  · by_cases h : tm.sort_column = col <;>
      simp [update, sort_processes, rankOrder, h] <;>
      exact List.perm_insertionSort _ _

/-- Claim C6: the record builder computes `memory` as the floor of the raw
byte count divided by 1048576; in particular 2097152 bytes give 2 MB and
1000000 bytes give 0 MB. -/
theorem memory_mb_is_floor_div (r : RawProcess) :
    (buildRecord r).memory = r.memory / 1048576 ∧
    (buildRecord ⟨0, "x", 2097152, .val 0⟩).memory = 2 ∧
    (buildRecord ⟨0, "x", 1000000, .val 0⟩).memory = 0 := by
  refine ⟨?_, by decide, by decide⟩
  simp [buildRecord, Nat.div_div_eq_div_mul]

/-- Claim C7: the Cpu comparator always yields an ordering, and when the
partial comparison of the cpu values is undefined it falls back to
`Ordering.eq` rather than failing. -/
theorem cpu_comparator_total (a b : ProcessInfo) :
    (F32.partialCmp a.cpu b.cpu = none → cmpBy .Cpu a b = .eq) ∧
    (cmpBy .Cpu a b = .lt ∨ cmpBy .Cpu a b = .eq ∨ cmpBy .Cpu a b = .gt) := by
  constructor
  · intro h
    simp [cmpBy, h]
  · rcases h : cmpBy .Cpu a b <;> simp

/-- Witness for `cpu_comparator_total` at a `nan`-valued record. -/
theorem cpu_comparator_total_witness :
    F32.partialCmp pNan.cpu pNan.cpu = none ∧
    cmpBy SortColumn.Cpu pNan pNan = .eq :=
  ⟨rfl, (cpu_comparator_total pNan pNan).1 rfl⟩

/-- Claim C8: end-to-end scenario — from the default state, refreshing on
the two-entry snapshot yields pids `[10, 20]`; selecting Memory yields
`[(20, 1 MB), (10, 3 MB)]`; selecting Memory again reverses to
`[10, 20]`. -/
theorem end_to_end_scenario :
    (newTaskManager os8).processes.map (fun p => p.pid) = [10, 20] ∧
    ((update (newTaskManager os8) (.Sort .Memory) os8).1.processes.map
        (fun p => (p.pid, p.memory))) = [(20, 1), (10, 3)] ∧
    ((update (update (newTaskManager os8) (.Sort .Memory) os8).1
        (.Sort .Memory) os8).1.processes.map (fun p => p.pid)) = [10, 20] := by
  decide

/-- Claim C9: a refresh — directly, via a tick, or via a kill — leaves the
ranking state (sort column and direction flag) unchanged; of the three
message kinds only `Sort` can change it. -/
theorem ranking_state_persists_across_refresh
    (tm : TaskManager) (os : List RawProcess) (pid : Nat) :
    ((refresh tm os).sort_column = tm.sort_column ∧
     (refresh tm os).sort_ascending = tm.sort_ascending) ∧
    ((update tm .Tick os).1.sort_column = tm.sort_column ∧
     (update tm .Tick os).1.sort_ascending = tm.sort_ascending) ∧
    ((update tm (.KillProcess pid) os).1.sort_column = tm.sort_column ∧
     (update tm (.KillProcess pid) os).1.sort_ascending = tm.sort_ascending) :=
  ⟨⟨rfl, rfl⟩, ⟨rfl, rfl⟩, ⟨rfl, rfl⟩⟩

/-- Claim C10: sorting permutes the held record set — the records after
`sort_processes` are exactly the records before it, none added, dropped or
modified. -/
theorem sort_processes_is_permutation (tm : TaskManager) :
    ((sort_processes tm).processes).Perm tm.processes :=
  List.perm_insertionSort _ _

end TaskMgr
